import Mathlib

/-!
Verification of the HDF5 multi-threaded concurrency extension
(`HDF5_MT_Concurrency`): a shallow embedding of the repository's queue
(`queue.c` / `queue.h`), thread-pool sizing (`threadpool.c`:
`get_thread_count`), filter pipeline (`H5Z.c`: `H5Z_pipeline` write branch,
`H5Z__get_filter_lib_path`, `H5Z__assign_filter`) and the demonstration
dataset generator (`dataset.c`: `create_int_ds`), together with theorems
checking the natural-language specification against that code.

Modelling conventions:
* machine integers are `Nat`/`Int`; `size_t` arithmetic carries an explicit
  `% 2 ^ 64`, the `int` counter of `create_int_ds` wraps explicitly at
  `INT_MAX`;
* a C function that can crash (dereference a failed allocation) or block
  (condition-variable wait) is modelled with `Option`: `none` marks the
  crashed / blocked execution, `some` carries the returned value and the
  updated state;
* the environment is passed explicitly: `getenv` results become `Option`
  arguments (a C string is a list of its byte values, terminator excluded).
-/

/-! ## Bounded blocking queue (`queue.h` / `queue.c`)

The C `queue` holds `int nelmts`, `int elmts_added`, and a singly linked
list of `queue_item` nodes from `head` to `tail`; the linked list is
modelled as the Lean list `items` (head first).  The mutex serialises the
operations, so each C function becomes one atomic state transition.  The
condition-variable calls a transition performs are reported explicitly so
that waking behaviour is visible in the model. -/

/-- The linked list `head` → … → `tail` of a C `queue`, plus its two
counters.  `nelmts : Int` because the code stores `-1` in it as the
"closed" latch. -/
structure Queue (α : Type) where
  nelmts : Int
  elmts_added : Int
  items : List α
deriving Repr, DecidableEq

/-- A condition-variable operation performed by a queue transition:
`pthread_cond_signal` wakes at most one waiter, `pthread_cond_broadcast`
wakes every waiter. -/
inductive CondOp where
  | signal
  | broadcast
deriving Repr, DecidableEq

/-- `queue_add` from `queue.c`.  `item = none` is the null sentinel: the
code sets `q->nelmts = -1` and signals once, returning 0.  For a real item
the code calls `malloc` for the node — `allocOk` says whether that
allocation succeeds; on failure the code immediately stores through the
null pointer (`q_item->held_item = item`), which is the crash `none`.
On success the node is linked at the tail (the `head == NULL` branch sets
`nelmts = 1`, the other increments it), `elmts_added` is incremented, one
signal is sent and 1 is returned. -/
def queue_add (allocOk : Bool) (q : Queue α) (item : Option α) :
    Option (Int × Queue α × CondOp) :=
  match item with
  | none => some (0, { q with nelmts := -1 }, CondOp.signal)
  | some x =>
    if allocOk then
      match q.items with
      | [] =>
        some (1, { nelmts := 1, elmts_added := q.elmts_added + 1, items := [x] },
              CondOp.signal)
      | _ :: _ =>
        some (1, { nelmts := q.nelmts + 1, elmts_added := q.elmts_added + 1,
                   items := q.items ++ [x] }, CondOp.signal)
    else
      none

/-- `queue_get_elmts_added` from `queue.c`: returns `q->elmts_added`
under the lock. -/
def queue_get_elmts_added (q : Queue α) : Int :=
  q.elmts_added

/-- `queue_get` from `queue.c`.  The code waits on the condition variable
while `q->nelmts == 0`; in the sequential model a call made in such a
state blocks, which is `none`.  Otherwise: if `head == NULL` it returns
`NULL` (modelled `some (none, q)`, the state unchanged — the code does not
decrement `nelmts` in this branch), else it unlinks the head node, returns
its item and decrements `nelmts`. -/
def queue_get (q : Queue α) : Option (Option α × Queue α) :=
  if q.nelmts = 0 then
    none
  else
    match q.items with
    | [] => some (none, q)
    | x :: rest => some (some x, { q with nelmts := q.nelmts - 1, items := rest })

/-- One queue operation of a client trace: an enqueue (with its allocation
outcome) or a dequeue. -/
inductive QOp (α : Type) where
  | add (allocOk : Bool) (item : Option α)
  | get
deriving Repr

/-- Run one queue operation, keeping only the resulting state.
`none` means the operation crashed (failed allocation) or blocked. -/
def runOp (q : Queue α) : QOp α → Option (Queue α)
  | QOp.add ok it => (queue_add ok q it).map (fun r => r.2.1)
  | QOp.get => (queue_get q).map (fun r => r.2)

/-- Run a list of queue operations from a starting state. -/
def runOps (q : Queue α) : List (QOp α) → Option (Queue α)
  | [] => some q
  | op :: ops => (runOp q op).bind (fun q2 => runOps q2 ops)

/-- Perform `n` consecutive `queue_get` calls, collecting the returned
items; `none` if any call blocks. -/
def getN (q : Queue α) : Nat → Option (List (Option α) × Queue α)
  | 0 => some ([], q)
  | n + 1 =>
    (queue_get q).bind (fun r =>
      (getN r.2 n).map (fun s => (r.1 :: s.1, s.2)))

/-! ## Thread count (`threadpool.c`, `get_thread_count`)

The function reads `getenv("H5_NTHREADS")` and parses it as an ASCII
decimal into a `size_t` (64-bit, wrapping).  On the first character it
resets the initial default `1` to `0`; each iteration multiplies by 10
and adds `c - 48`; a character outside `0`–`9` prints a diagnostic to
stderr, sets the result to 1 and breaks.  The returned pair is
(value, diagnostic-was-printed). -/

/-- The value of a C `char` read as a (typical, signed) 8-bit integer:
bytes ≥ 128 are negative. -/
def signedChar (c : Nat) : Int :=
  if c < 128 then (c : Int) else (c : Int) - 256

/-- The parsing loop of `get_thread_count`, starting from accumulator
`acc` (the C `size_t nthreads` after the first-iteration reset to 0).
`size_t` arithmetic wraps modulo `2 ^ 64`. -/
def gtcLoop (acc : Nat) : List Nat → Nat × Bool
  | [] => (acc, false)
  | c :: rest =>
    let acc1 := acc * 10 % 2 ^ 64
    let d := signedChar c - 48
    if d < 0 ∨ 9 < d then (1, true)
    else gtcLoop ((acc1 + d.toNat) % 2 ^ 64) rest

/-- `get_thread_count` from `threadpool.c`, as a function of the value of
the environment variable `H5_NTHREADS` (`none` = unset; a set value is
the list of its bytes).  Returns the computed thread count together with
whether the `"H5_NTHREADS not valid."` diagnostic was printed to stderr. -/
def get_thread_count (env : Option (List Nat)) : Nat × Bool :=
  match env with
  | none => (1, false)
  | some [] => (1, false)
  | some (c :: rest) => gtcLoop 0 (c :: rest)

/-- The mathematical decimal value of a digit string (each byte assumed
in `48`–`57`). -/
def decValue (s : List Nat) : Nat :=
  s.foldl (fun a c => a * 10 + (c - 48)) 0

/-- Modelled from the spec: the compile-time ceiling `Tmax` on the worker
count (the spec's suggested value, 256); its defining code is not under
`src/`. -/
def Tmax : Nat := 256

/-- Modelled from the spec: the worker-count selection of the engine's
entry point (`H5Dwrite_filter_parallel`, not under `src/`): "`T` is
determined once per call from the API argument `nthreads`; if that
argument is zero, an environment variable provides a fallback; if
neither is set, `T = 1`.  `T` is clamped to `[1, Tmax]` where `Tmax` is
a compile-time ceiling". -/
def worker_count (nthreads : Nat) (env : Option (List Nat)) : Nat :=
  max 1 (min (if nthreads = 0 then (get_thread_count env).1 else nthreads) Tmax)

/-! ## Demonstration dataset (`examples/LZ4_parallel/dataset.c`) -/

/-- `INT_MAX` for the 32-bit `int` of the target platform. -/
def INT_MAX : Int := 2147483647

/-- The loop body of `create_int_ds`: position `i` receives `counter` when
`i` is even and `1` otherwise, and `counter` is then advanced on *every*
iteration — reset to 0 when it equals `INT_MAX`, incremented otherwise. -/
def create_int_ds_go (i : Nat) (counter : Int) : Nat → List Int
  | 0 => []
  | n + 1 =>
    (if i % 2 = 0 then counter else 1) ::
      create_int_ds_go (i + 1) (if counter = INT_MAX then 0 else counter + 1) n

/-- `create_int_ds` from `dataset.c` (the allocation of the output array is
abstracted away; the result is the list of stored `int` values). -/
def create_int_ds (length : Nat) : List Int :=
  create_int_ds_go 0 0 length

/-- The source pattern as the specification words it
(`i%2==0 ? counter++ : 1`): the counter is incremented *only* when it is
consumed at an even position.  Stated from the claim's words, for
comparison with `create_int_ds`. -/
def create_int_ds_claimed_go (i : Nat) (counter : Int) : Nat → List Int
  | 0 => []
  | n + 1 =>
    (if i % 2 = 0 then counter else 1) ::
      create_int_ds_claimed_go (i + 1)
        (if i % 2 = 0 then (if counter = INT_MAX then 0 else counter + 1) else counter) n

/-- The dataset the claim describes, built from `create_int_ds_claimed_go`. -/
def create_int_ds_claimed (length : Nat) : List Int :=
  create_int_ds_claimed_go 0 0 length

/-! ## Filter pipeline, write direction (`H5Z.c`, `H5Z_pipeline`)

The `else if (pline)` branch of `H5Z_pipeline` (the branch taken when
`H5Z_FLAG_REVERSE` is not in `flags`) iterates the pipeline positions in
definition order with a local accumulator `failed = 0`:

* a position whose bit is set in the incoming `*filter_mask` is skipped
  (`failed |= 1<<idx; continue`);
* a position whose filter id is not in the registered-filter table
  (`H5Z__find_idx < 0`) errors out if the entry lacks `H5Z_FLAG_OPTIONAL`,
  else is skipped (`failed |= 1<<idx; continue`);
* otherwise the filter callable runs on (`*nbytes`, `*buf_size`, `*buf`);
  a zero return of a non-`OPTIONAL` filter consults `cb_struct` — without
  a continuing callback the whole call errors, with one it sets
  `*nbytes = *buf_size` and records the failure bit; a zero return of an
  `OPTIONAL` filter records the failure bit, leaving `*nbytes` untouched;
  a nonzero return `v` sets `*nbytes = v`;

and on (normal) exit stores `failed` into `*filter_mask`.  An
`HGOTO_ERROR` exit leaves `*filter_mask` unwritten.

The callable is modelled as a function of the two sizes it can read and
rewrite (`*nbytes`, `*buf_size`); its constant per-entry inputs (`flags`,
`cd_nelmts`, `cd_values`) and the buffer pointer it may replace are
absorbed, since no claim observes them.  Whether the entry's id is found
by `H5Z__find_idx` is the per-entry field `registered`. -/

/-- One pipeline entry as `H5Z_pipeline`'s write branch observes it. -/
structure ZFilterEntry where
  registered : Bool
  optional : Bool
  filter : Nat → Nat → Nat × Nat
deriving Inhabited

/-- Mutable state threaded through the write loop: the `failed`
accumulator and the two in-out sizes. -/
structure PipeState where
  failed : Nat
  nbytes : Nat
  bufSize : Nat
deriving Repr, DecidableEq

/-- What happened at one pipeline position. -/
inductive StepOutcome where
  | skippedMask
  | skippedUnreg
  | failedZero
  | applied (v : Nat)
deriving Repr, DecidableEq

/-- Did the position contribute a bit to `failed`? -/
def StepOutcome.skippy : StepOutcome → Bool
  | StepOutcome.applied _ => false
  | _ => true

/-- One iteration of the write loop of `H5Z_pipeline` at position `idx`.
`maskIn` is the incoming `*filter_mask`; `cb` models `cb_struct.func`
(`none` = no callback; `some f` = a callback whose verdict at position
`idx` is `f idx`, `false` meaning `H5Z_CB_FAIL`).  `Except.error ()` is
the `HGOTO_ERROR` exit. -/
def H5Z_pipeline_write_step (maskIn : Nat) (cb : Option (Nat → Bool)) (idx : Nat)
    (e : ZFilterEntry) (s : PipeState) : Except Unit (PipeState × StepOutcome) :=
  if maskIn.testBit idx then
    Except.ok ({ s with failed := s.failed ||| 1 <<< idx }, StepOutcome.skippedMask)
  else if e.registered = false then
    if e.optional = false then
      Except.error ()
    else
      Except.ok ({ s with failed := s.failed ||| 1 <<< idx }, StepOutcome.skippedUnreg)
  else
    match e.filter s.nbytes s.bufSize with
    | (0, bs2) =>
      if e.optional = false then
        match cb with
        | none => Except.error ()
        | some f =>
          if f idx then
            Except.ok ({ failed := s.failed ||| 1 <<< idx, nbytes := bs2, bufSize := bs2 },
                       StepOutcome.failedZero)
          else
            Except.error ()
      else
        Except.ok ({ failed := s.failed ||| 1 <<< idx, nbytes := s.nbytes, bufSize := bs2 },
                   StepOutcome.failedZero)
    | (Nat.succ v, bs2) =>
      Except.ok ({ failed := s.failed, nbytes := Nat.succ v, bufSize := bs2 },
                 StepOutcome.applied (Nat.succ v))

/-- The write loop over the remaining entries, `idx` being the position of
the first of them; also returns the per-position outcome trace. -/
def H5Z_pipeline_write_loop (maskIn : Nat) (cb : Option (Nat → Bool)) :
    List ZFilterEntry → Nat → PipeState → Except Unit (PipeState × List StepOutcome)
  | [], _, s => Except.ok (s, [])
  | e :: rest, idx, s =>
    match H5Z_pipeline_write_step maskIn cb idx e s with
    | Except.error u => Except.error u
    | Except.ok (s2, o) =>
      match H5Z_pipeline_write_loop maskIn cb rest (idx + 1) s2 with
      | Except.error u => Except.error u
      | Except.ok (sf, os) => Except.ok (sf, o :: os)

/-- `H5Z_pipeline`, write direction: runs the loop from position 0 with
`failed = 0` and, on normal exit, stores `failed` into `*filter_mask`.
Returns (new `*filter_mask`, new `*nbytes`, new `*buf_size`, trace). -/
def H5Z_pipeline_write (maskIn : Nat) (cb : Option (Nat → Bool))
    (entries : List ZFilterEntry) (nbytes bufSize : Nat) :
    Except Unit (Nat × Nat × Nat × List StepOutcome) :=
  match H5Z_pipeline_write_loop maskIn cb entries 0 ⟨0, nbytes, bufSize⟩ with
  | Except.error u => Except.error u
  | Except.ok (s, os) => Except.ok (s.failed, s.nbytes, s.bufSize, os)

/-! ## Filter resolver (`H5Z.c`, `H5Z__get_filter_lib_path`,
`H5Z__assign_filter`) -/

/-- `H5Z_FLAG_OPTIONAL` (`H5Zpublic.h`). -/
def H5Z_FLAG_OPTIONAL : Nat := 1

/-- `H5Z_FILTER_DEFLATE` (`H5Zpublic.h`). -/
def H5Z_FILTER_DEFLATE : Int := 1

/-- `H5Z_FILTER_LZ4` (registered plugin id, as in the examples). -/
def H5Z_FILTER_LZ4 : Int := 32004

/-- `H5Z_FILTER_ZSTD` (registered plugin id; its defining header is not
under `src/`). -/
def H5Z_FILTER_ZSTD : Int := 32015

/-- `H5Z__get_filter_lib_path`: maps a filter id to the shared-object
file name and exported symbol name, `none` (`FAIL`) for any other id. -/
def H5Z__get_filter_lib_path (filter_id : Int) : Option (String × String) :=
  if filter_id = H5Z_FILTER_LZ4 then
    some ("/libh5lz4.so.0", "H5Z_LZ4")
  else if filter_id = H5Z_FILTER_ZSTD then
    some ("/libh5zstd.so.0", "H5Z_ZSTD")
  else
    none

/-- One pipeline entry as `H5Z__assign_filter` reads it (id and flags
from `pipeline.filter[i]`). -/
structure PipeEntry where
  id : Int
  flags : Nat
deriving Repr, DecidableEq

/-- The filter-class pointer stored into `h5z_symbol[i]`: the built-in
`H5Z_DEFLATE` class, or the address `dlsym` returned for a plugin. -/
inductive ResolvedFilter where
  | deflateBuiltin
  | plugin (addr : Nat)
deriving Repr, DecidableEq

/-- The host environment `H5Z__assign_filter` consults: the
`HDF5_PLUGIN_PATH` variable, whether `calloc` succeeds for the path
buffer, what handle `dlopen` yields for a path, and what address `dlsym`
resolves for a (path, symbol) pair (`0` = `NULL`, i.e. not found). -/
structure AssignEnv where
  pluginPath : Option String
  callocOk : Bool
  dlopenOk : String → Bool
  dlsymAddr : String → String → Nat

/-- The per-entry loop of `H5Z__assign_filter` (write mode).  For each
entry: an id with no library path is accepted only if it is
`H5Z_FILTER_DEFLATE` (built-in), *any* other unknown id is an
`HGOTO_ERROR` regardless of the entry's flags; a known id has its library
opened from the plugin search path and its symbol resolved, either step's
failure (or the path allocation's) erroring out. -/
def assignLoop (env : AssignEnv) (pluginPath : String) :
    List PipeEntry → Except Unit (List ResolvedFilter)
  | [] => Except.ok []
  | e :: rest =>
    match H5Z__get_filter_lib_path e.id with
    | none =>
      if e.id = H5Z_FILTER_DEFLATE then
        match assignLoop env pluginPath rest with
        | Except.error u => Except.error u
        | Except.ok rs => Except.ok (ResolvedFilter.deflateBuiltin :: rs)
      else
        Except.error ()
    | some (libName, symbol) =>
      if env.callocOk = false then
        Except.error ()
      else
        let libPath := pluginPath ++ libName
        if env.dlopenOk libPath = false then
          Except.error ()
        else if env.dlsymAddr libPath symbol = 0 then
          Except.error ()
        else
          match assignLoop env pluginPath rest with
          | Except.error u => Except.error u
          | Except.ok rs => Except.ok (ResolvedFilter.plugin (env.dlsymAddr libPath symbol) :: rs)

/-- `H5Z__assign_filter`: resolves every pipeline entry to a filter class
for this write.  Only mode `'w'` walks the pipeline; any other mode
returns success having assigned nothing.  The plugin search path is
`HDF5_PLUGIN_PATH` when set, else the compiled-in default. -/
def H5Z__assign_filter (env : AssignEnv) (pipeline : List PipeEntry) (mode : Char) :
    Except Unit (List ResolvedFilter) :=
  let pluginPath := env.pluginPath.getD "/usr/local/hdf5/lib/plugin"
  if mode = 'w' then
    assignLoop env pluginPath pipeline
  else
    Except.ok []

/-! ## Auxiliary definitions used by the theorems -/

/-- The `failed` bits a trace contributes, its first outcome sitting at
pipeline position `idx`. -/
def traceMask (idx : Nat) : List StepOutcome → Nat
  | [] => 0
  | o :: os => (if o.skippy then 1 <<< idx else 0) ||| traceMask (idx + 1) os

/-- A registered optional filter whose callable always fails (returns 0),
leaving the buffer size unchanged. -/
def entOptFail : ZFilterEntry := ⟨true, true, fun _ bs => (0, bs)⟩

/-- A registered required filter whose callable always succeeds with 5
output bytes. -/
def entApply5 : ZFilterEntry := ⟨true, false, fun _ bs => (5, bs)⟩

/-- A host environment for the resolver in which every load succeeds. -/
def assignEnvAllOk : AssignEnv := ⟨none, true, fun _ => true, fun _ _ => 1⟩

/-- The byte values of the decimal string for `2 ^ 64`
(`"18446744073709551616"`). -/
def twoTo64Digits : List Nat :=
  [49, 56, 52, 52, 54, 55, 52, 52, 48, 55, 51, 55, 48, 57, 53, 53, 49, 54, 49, 54]

/-! ## Theorems -/

/-- C10: when `H5_NTHREADS` is set but equal to the empty string, the
digit-parsing loop never executes, so `get_thread_count` returns the
initial default of one thread, and no diagnostic is emitted. -/
theorem get_thread_count_empty_env :
    get_thread_count (some []) = (1, false) := rfl

/-- C6, evaluation at the failing input: `queue_add` of a non-null item
when the node allocation fails.  The code has no null check after
`malloc`; it immediately stores through the null pointer
(`q_item->held_item = item`), so the execution crashes (`none` in the
model) — the failure is not propagated to the caller as the claim
states. -/
theorem queue_add_alloc_failure_crash :
    queue_add false (Queue.mk 0 0 [] : Queue Nat) (some 1) = none := rfl

/-- C8 counterexample: closing the queue (`queue_add` of the null
sentinel) performs `pthread_cond_signal`, which wakes at most one waiter,
not the wake-all (`pthread_cond_broadcast`) the claim states. -/
theorem queue_close_signal_not_broadcast_cex :
    ¬ ((queue_add true (Queue.mk 0 0 [] : Queue Nat) none).map (fun r => r.2.2)
        = some CondOp.broadcast) := by
  decide

/-- C8 (amended): enqueuing the null sentinel sets the internal closed
latch (`nelmts = -1`), leaves the stored items and the added-items counter
unchanged, returns 0 and signals the condition variable once (waking one
waiter rather than all); and double-close is idempotent — closing an
already-closed queue reproduces exactly the state after the first
close. -/
theorem queue_close_spec (q : Queue α) (ok ok2 : Bool) :
    queue_add ok q none
      = some (0, Queue.mk (-1) q.elmts_added q.items, CondOp.signal)
    ∧ queue_add ok2 (Queue.mk (-1) q.elmts_added q.items) none
      = some (0, Queue.mk (-1) q.elmts_added q.items, CondOp.signal) :=
  ⟨rfl, rfl⟩

/-- C9 counterexample: the claim's pattern (counter incremented only when
consumed at an even position) diverges from `create_int_ds` already at
length 3: the code stores 2 at index 2 (its counter advances every
iteration), while the claimed pattern stores 1 there. -/
theorem create_int_ds_pattern_cex :
    create_int_ds 3 ≠ create_int_ds_claimed 3
    ∧ (create_int_ds 3).get? 2 = some 2
    ∧ (create_int_ds_claimed 3).get? 2 = some 1 := by
  decide

/-- C2 counterexample: a pipeline whose single entry carries an unknown
filter id (9999) *with the `OPTIONAL` flag set* still makes the whole
`H5Z__assign_filter` call fail: the resolver never consults the flags, no
"skip" slot is recorded, and the call does not proceed. -/
theorem assign_filter_optional_unknown_cex :
    H5Z__assign_filter assignEnvAllOk [⟨9999, H5Z_FLAG_OPTIONAL⟩] 'w'
      = Except.error () := by
  rfl

/-- C5 counterexample: `H5_NTHREADS="18446744073709551616"` (the decimal
string of `2 ^ 64`) consists only of the digits 0–9, yet
`get_thread_count` returns 0 — the `size_t` accumulator wraps — rather
than the decimal numeric value of the string. -/
theorem get_thread_count_overflow_cex :
    (∀ c ∈ twoTo64Digits, 48 ≤ c ∧ c ≤ 57)
    ∧ get_thread_count (some twoTo64Digits) = (0, false)
    ∧ decValue twoTo64Digits = 2 ^ 64
    ∧ (get_thread_count (some twoTo64Digits)).1 ≠ decValue twoTo64Digits := by
  refine ⟨by decide, by decide, by decide, by decide⟩

/-- The decimal fold is a congruence modulo `2 ^ 64`: folding from two
accumulators equal mod `2 ^ 64` yields results equal mod `2 ^ 64`. -/
theorem decFold_modeq (s : List Nat) : ∀ a b : Nat, a % 2 ^ 64 = b % 2 ^ 64 →
    (s.foldl (fun x c => x * 10 + (c - 48)) a) % 2 ^ 64
      = (s.foldl (fun x c => x * 10 + (c - 48)) b) % 2 ^ 64 := by
  induction s with
  | nil => intro a b h; simpa using h
  | cons c rest ih =>
    intro a b h
    simp only [List.foldl_cons]
    exact ih _ _ (Nat.ModEq.add_right _ (Nat.ModEq.mul_right 10 h))

/-- On an all-digit suffix the parsing loop computes the decimal fold of
its accumulator, reduced modulo `2 ^ 64`, and prints no diagnostic. -/
theorem gtcLoop_digits (s : List Nat) : ∀ acc : Nat, acc < 2 ^ 64 →
    (∀ c ∈ s, 48 ≤ c ∧ c ≤ 57) →
    gtcLoop acc s = ((s.foldl (fun a c => a * 10 + (c - 48)) acc) % 2 ^ 64, false) := by
  induction s with
  | nil =>
    intro acc hacc _
    simp only [gtcLoop, List.foldl_nil]
    rw [Nat.mod_eq_of_lt hacc]
  | cons c rest ih =>
    intro acc hacc hd
    have hc : 48 ≤ c ∧ c ≤ 57 := hd c (List.mem_cons_self c rest)
    have hsc : signedChar c = (c : Int) := by
      unfold signedChar
      have h128 : c < 128 := by omega
      simp [h128]
    have hvalid : ¬ (signedChar c - 48 < 0 ∨ 9 < signedChar c - 48) := by
      rw [hsc]; omega
    have htn : (signedChar c - 48).toNat = c - 48 := by rw [hsc]; omega
    simp only [gtcLoop, hvalid, if_false, htn, List.foldl_cons]
    rw [ih _ (Nat.mod_lt _ (by norm_num)) (fun x hx => hd x (List.mem_cons_of_mem c hx))]
    refine congrArg (fun z => (z, false)) ?_
    apply decFold_modeq
    omega

/-- A byte outside `0`–`9` anywhere in the value makes the parsing loop
return 1 with the diagnostic printed, whatever the accumulator held. -/
theorem gtcLoop_invalid (s : List Nat) : ∀ acc : Nat,
    (∀ c ∈ s, c < 256) → (∃ c ∈ s, c < 48 ∨ 57 < c) →
    gtcLoop acc s = (1, true) := by
  induction s with
  | nil => intro acc _ h; simp at h
  | cons c rest ih =>
    intro acc hb hex
    by_cases hcd : 48 ≤ c ∧ c ≤ 57
    · have hsc : signedChar c = (c : Int) := by
        unfold signedChar
        have h128 : c < 128 := by omega
        simp [h128]
      have hvalid : ¬ (signedChar c - 48 < 0 ∨ 9 < signedChar c - 48) := by
        rw [hsc]; omega
      have hex2 : ∃ x ∈ rest, x < 48 ∨ 57 < x := by
        rcases hex with ⟨x, hx, hor⟩
        rcases List.mem_cons.mp hx with h | h
        · subst h; omega
        · exact ⟨x, h, hor⟩
      simp only [gtcLoop, hvalid, if_false]
      exact ih _ (fun x hx => hb x (List.mem_cons_of_mem c hx)) hex2
    · have hcb : c < 256 := hb c (List.mem_cons_self c rest)
      have hinv : signedChar c - 48 < 0 ∨ 9 < signedChar c - 48 := by
        unfold signedChar
        by_cases h128 : c < 128
        · simp only [h128, if_true]; omega
        · simp only [h128, if_false]; omega
      simp only [gtcLoop, hinv, if_true]

/-- `get_thread_count` on a non-empty all-digit value: the decimal value
modulo `2 ^ 64`, no diagnostic. -/
theorem get_thread_count_digits (s : List Nat) (hne : s ≠ [])
    (hd : ∀ c ∈ s, 48 ≤ c ∧ c ≤ 57) :
    get_thread_count (some s) = (decValue s % 2 ^ 64, false) := by
  cases s with
  | nil => exact absurd rfl hne
  | cons c rest =>
    show gtcLoop 0 (c :: rest) = _
    exact gtcLoop_digits _ 0 (by norm_num) hd

/-- `get_thread_count` on a value containing a non-digit byte: 1, with
the stderr diagnostic. -/
theorem get_thread_count_nondigit (s : List Nat) (hb : ∀ c ∈ s, c < 256)
    (hex : ∃ c ∈ s, c < 48 ∨ 57 < c) :
    get_thread_count (some s) = (1, true) := by
  cases s with
  | nil => simp at hex
  | cons c rest =>
    show gtcLoop 0 (c :: rest) = _
    exact gtcLoop_invalid _ 0 hb hex

/-- C5 (amended): for a non-empty `H5_NTHREADS` value consisting only of
the digits 0–9, `get_thread_count` returns its decimal numeric value
reduced modulo `2 ^ 64` (the `size_t` width) with no diagnostic; for a
value containing a non-digit byte it returns 1 and emits the diagnostic
on the standard error stream. -/
theorem get_thread_count_parse_spec :
    (∀ s : List Nat, s ≠ [] → (∀ c ∈ s, 48 ≤ c ∧ c ≤ 57) →
        get_thread_count (some s) = (decValue s % 2 ^ 64, false))
    ∧ (∀ s : List Nat, (∀ c ∈ s, c < 256) → (∃ c ∈ s, c < 48 ∨ 57 < c) →
        get_thread_count (some s) = (1, true)) :=
  ⟨get_thread_count_digits, get_thread_count_nondigit⟩

/-- Witness for C5's theorem at concrete inputs: value `"12"` parses to
12, value `"1a"` falls back to 1 with the diagnostic. -/
theorem get_thread_count_parse_spec_witness :
    (([49, 50] : List Nat) ≠ []
      ∧ (∀ c ∈ ([49, 50] : List Nat), 48 ≤ c ∧ c ≤ 57)
      ∧ get_thread_count (some [49, 50]) = (decValue [49, 50] % 2 ^ 64, false))
    ∧ ((∀ c ∈ ([49, 97] : List Nat), c < 256)
      ∧ (∃ c ∈ ([49, 97] : List Nat), c < 48 ∨ 57 < c)
      ∧ get_thread_count (some [49, 97]) = (1, true)) :=
  ⟨⟨by decide, by decide, get_thread_count_parse_spec.1 [49, 50] (by decide) (by decide)⟩,
   ⟨by decide, by decide, get_thread_count_parse_spec.2 [49, 97] (by decide) (by decide)⟩⟩

/-- C4: the worker count `T` is determined once per call — from the API
argument `nthreads` when nonzero, from the `H5_NTHREADS` fallback via
`get_thread_count` when `nthreads = 0`, and `T = 1` when neither is set
— and for every `nthreads` and every possible environment value the
resulting `T` lies in `[1, Tmax]`: it is never 0 and never exceeds the
compile-time ceiling. -/
theorem worker_count_spec :
    (∀ (n : Nat) (env : Option (List Nat)),
        1 ≤ worker_count n env ∧ worker_count n env ≤ Tmax)
    ∧ worker_count 0 none = 1
    ∧ (∀ (n : Nat) (env : Option (List Nat)), n ≠ 0 →
        worker_count n env = max 1 (min n Tmax))
    ∧ (∀ env : Option (List Nat),
        worker_count 0 env = max 1 (min (get_thread_count env).1 Tmax)) := by
  refine ⟨?_, by decide, ?_, ?_⟩
  · intro n env
    unfold worker_count Tmax
    omega
  · intro n env hn
    simp [worker_count, hn]
  · intro env
    simp [worker_count]

/-- Witness for C4's theorem at concrete inputs: `nthreads = 300` is
clamped to the ceiling, and `nthreads = 0` with `H5_NTHREADS="0"` still
yields a count in `[1, Tmax]`. -/
theorem worker_count_spec_witness :
    ((300 : Nat) ≠ 0 ∧ worker_count 300 none = max 1 (min 300 Tmax))
    ∧ (1 ≤ worker_count 0 (some [48]) ∧ worker_count 0 (some [48]) ≤ Tmax) :=
  ⟨⟨by decide, worker_count_spec.2.2.1 300 none (by decide)⟩,
   worker_count_spec.1 0 (some [48])⟩

/-- Element `j` of the generator loop run for `n` more iterations from
position `i` with counter `c`: positions of parity opposite to `i` hold 1,
the others hold the counter advanced `j` times with its `INT_MAX` wrap,
i.e. `(c + j) % 2147483648`. -/
theorem create_int_ds_go_get (n : Nat) : ∀ (i : Nat) (c : Int) (j : Nat),
    0 ≤ c → c < 2147483648 → j < n →
    (create_int_ds_go i c n).get? j
      = some (if (i + j) % 2 = 0 then (c + (j : Int)) % 2147483648 else 1) := by
  induction n with
  | zero => intro i c j _ _ hj; omega
  | succ n ih =>
    intro i c j h0 h1 hj
    cases j with
    | zero =>
      simp only [create_int_ds_go, List.get?_cons_zero, Nat.add_zero, Int.natCast_zero,
        Int.add_zero]
      rw [Int.emod_eq_of_lt h0 h1]
    | succ j =>
      simp only [create_int_ds_go, List.get?_cons_succ]
      rw [ih (i + 1) (if c = INT_MAX then 0 else c + 1) j (by unfold INT_MAX; split <;> omega)
        (by unfold INT_MAX; split <;> omega) (by omega)]
      have harg : (i + 1 + j) % 2 = (i + (j + 1)) % 2 := by omega
      by_cases hm : c = INT_MAX
      · subst hm
        simp only [if_pos rfl, harg]
        congr 1
        by_cases hp : (i + (j + 1)) % 2 = 0
        · simp only [hp, if_true]
          unfold INT_MAX
          push_cast
          omega
        · simp only [hp, if_false]
      · simp only [if_neg hm, harg]
        congr 1
        by_cases hp : (i + (j + 1)) % 2 = 0
        · simp only [hp, if_true]
          push_cast
          omega
        · simp only [hp, if_false]

/-- C9 (amended): in the array produced by `create_int_ds(L)`, element
`i` is 1 when `i` is odd; when `i` is even it is the counter value, the
counter being advanced after *every* position (not only the even ones)
and wrapping to 0 after `INT_MAX` — so an even element `i` equals
`i % 2147483648`. -/
theorem create_int_ds_spec (L i : Nat) (h : i < L) :
    (create_int_ds L).get? i
      = some (if i % 2 = 0 then ((i : Int) % 2147483648) else 1) := by
  have hg := create_int_ds_go_get L 0 0 i (le_refl 0) (by norm_num) h
  simpa using hg

/-- Witness for C9's theorem: element 2 of `create_int_ds 4` is 2. -/
theorem create_int_ds_spec_witness :
    2 < 4
    ∧ (create_int_ds 4).get? 2
        = some (if 2 % 2 = 0 then (((2 : Nat) : Int) % 2147483648) else 1) :=
  ⟨by decide, create_int_ds_spec 4 2 (by decide)⟩

/-- Running a concatenation of operation sequences is running them in
turn. -/
theorem runOps_append (q : Queue α) (l1 l2 : List (QOp α)) :
    runOps q (l1 ++ l2) = (runOps q l1).bind (fun q2 => runOps q2 l2) := by
  induction l1 generalizing q with
  | nil => simp [runOps]
  | cons op ops ih =>
    simp only [List.cons_append, runOps]
    cases runOp q op with
    | none => simp
    | some q2 => simp [ih]

/-- Enqueuing a list of items onto a consistent open queue (`nelmts`
equals the stored-item count) appends them in order, adds their count to
both counters, and never fails or blocks. -/
theorem runOps_adds (xs : List α) : ∀ (it : List α) (n e : Int), n = it.length →
    runOps (Queue.mk n e it) (xs.map (fun x => QOp.add true (some x)))
      = some (Queue.mk (it.length + xs.length) (e + xs.length) (it ++ xs)) := by
  induction xs with
  | nil =>
    intro it n e h
    simp [runOps, h]
  | cons x xs ih =>
    intro it n e h
    simp only [List.map_cons, runOps]
    have hstep : runOp (Queue.mk n e it) (QOp.add true (some x))
        = some (Queue.mk ((it.length : Int) + 1) (e + 1) (it ++ [x])) := by
      cases it with
      | nil =>
        simp [runOp, queue_add]
      | cons y ys =>
        simp [runOp, queue_add, h]
    rw [hstep]
    simp only [Option.some_bind]
    rw [ih (it ++ [x]) _ _ (by simp)]
    simp only [Option.some_inj, Queue.mk.injEq]
    refine ⟨by simp [List.length_append]; ring, by simp [List.length_cons]; ring, by simp⟩

/-- Dequeuing from an empty queue whose `nelmts` is nonzero (in
particular a drained closed queue) yields `nil` every time and leaves the
state untouched. -/
theorem getN_empty_closed (k : Nat) : ∀ (m e : Int), m ≠ 0 →
    getN (Queue.mk m e ([] : List α)) k
      = some (List.replicate k none, Queue.mk m e []) := by
  induction k with
  | zero => intro m e hm; simp [getN]
  | succ k ih =>
    intro m e hm
    simp only [getN, queue_get, if_neg hm, Option.some_bind]
    rw [ih m e hm]
    simp [List.replicate_succ]

/-- Draining a closed queue (`nelmts < 0`): the stored items come out in
FIFO order, every further dequeue returns `nil`, and no call blocks. -/
theorem getN_drain (items : List α) : ∀ (m e : Int) (k : Nat), m < 0 →
    getN (Queue.mk m e items) (items.length + k)
      = some (items.map some ++ List.replicate k none,
              Queue.mk (m - items.length) e []) := by
  induction items with
  | nil =>
    intro m e k hm
    simp only [List.length_nil, Nat.zero_add, List.map_nil, List.nil_append,
      Int.natCast_zero, Int.sub_zero]
    exact getN_empty_closed k m e (by omega)
  | cons x rest ih =>
    intro m e k hm
    have hlen : (x :: rest).length + k = (rest.length + k) + 1 := by
      simp [List.length_cons]; omega
    rw [hlen]
    simp only [getN, queue_get, if_neg (show ¬ m = 0 by omega), Option.some_bind]
    rw [ih (m - 1) e k (by omega)]
    simp only [Option.map_some, Option.some_inj, Prod.mk.injEq, Queue.mk.injEq,
      List.map_cons, List.cons_append, List.length_cons]
    simp
    omega

/-- C3: from a fresh queue, `queue_add` of the items `xs` followed by the
null-sentinel close leaves exactly `xs` queued with the closed latch set;
the subsequent `queue_get` calls return exactly the enqueued items in
FIFO order (no item dropped), return `nil` exactly from the point the
queue is empty, and no call in the sequence blocks (the runs evaluate to
`some`). -/
theorem queue_fifo_spec (xs : List α) (k : Nat) :
    runOps (Queue.mk 0 0 [])
        (xs.map (fun x => QOp.add true (some x)) ++ [QOp.add true none])
      = some (Queue.mk (-1) xs.length xs)
    ∧ getN (Queue.mk (-1) (xs.length : Int) xs) (xs.length + k)
      = some (xs.map some ++ List.replicate k none,
              Queue.mk (-1 - (xs.length : Int)) xs.length []) := by
  constructor
  · rw [runOps_append]
    rw [runOps_adds xs [] 0 0 (by simp)]
    simp [runOps, runOp, queue_add]
  · exact getN_drain xs (-1) xs.length k (by omega)

/-- No single queue operation decreases `elmts_added`. -/
theorem runOp_elmts_le (q q2 : Queue α) (op : QOp α) (h : runOp q op = some q2) :
    q.elmts_added ≤ q2.elmts_added := by
  cases op with
  | add ok it =>
    cases it with
    | none =>
      simp [runOp, queue_add] at h
      rw [← h]
    | some x =>
      cases ok with
      | false => simp [runOp, queue_add] at h
      | true =>
        cases hq : q.items with
        | nil =>
          simp [runOp, queue_add, hq] at h
          rw [← h]
          show q.elmts_added ≤ q.elmts_added + 1
          omega
        | cons y ys =>
          simp [runOp, queue_add, hq] at h
          rw [← h]
          show q.elmts_added ≤ q.elmts_added + 1
          omega
  | get =>
    unfold runOp queue_get at h
    by_cases hz : q.nelmts = 0
    · simp [hz] at h
    · simp only [hz, if_false] at h
      cases hq : q.items with
      | nil =>
        simp [hq] at h
        rw [← h]
      | cons y ys =>
        simp [hq] at h
        rw [← h]

/-- C7: the value returned by `queue_get_elmts_added` increases by
exactly one on each `queue_add` of a non-null item, is unchanged by a
`queue_add` of the null sentinel and by `queue_get`, and is monotonically
non-decreasing across every (successfully executed) sequence of queue
operations. -/
theorem elmts_added_spec :
    (∀ (q : Queue α) (x : α),
        (queue_add true q (some x)).map (fun r => queue_get_elmts_added r.2.1)
          = some (queue_get_elmts_added q + 1))
    ∧ (∀ (q : Queue α) (ok : Bool),
        (queue_add ok q none).map (fun r => queue_get_elmts_added r.2.1)
          = some (queue_get_elmts_added q))
    ∧ (∀ (q : Queue α) (r : Option α) (q2 : Queue α),
        queue_get q = some (r, q2) →
          queue_get_elmts_added q2 = queue_get_elmts_added q)
    ∧ (∀ (q : Queue α) (ops : List (QOp α)) (q2 : Queue α),
        runOps q ops = some q2 →
          queue_get_elmts_added q ≤ queue_get_elmts_added q2) := by
  refine ⟨?_, ?_, ?_, ?_⟩
  · intro q x
    cases hq : q.items <;> simp [queue_add, hq, queue_get_elmts_added]
  · intro q ok
    simp [queue_add, queue_get_elmts_added]
  · intro q r q2 h
    unfold queue_get at h
    by_cases hz : q.nelmts = 0
    · simp [hz] at h
    · simp only [hz, if_false] at h
      cases hq : q.items with
      | nil =>
        simp [hq] at h
        rw [← h.2]
      | cons y ys =>
        simp [hq] at h
        rw [← h.2]
        rfl
  · intro q ops
    induction ops generalizing q with
    | nil =>
      intro q2 h
      simp [runOps] at h
      rw [h]
    | cons op rest ih =>
      intro q2 h
      simp only [runOps] at h
      cases hop : runOp q op with
      | none => simp [hop] at h
      | some q1 =>
        rw [hop] at h
        simp only [Option.some_bind] at h
        exact le_trans (runOp_elmts_le q q1 op hop) (ih q1 q2 h)

/-- Witness for C7's theorem at concrete inputs: a dequeue from `⟨1,1,[5]⟩`
and a one-element enqueue run from the fresh queue. -/
theorem elmts_added_spec_witness :
    (queue_get (Queue.mk 1 1 [5] : Queue Nat) = some (some 5, Queue.mk 0 1 [])
      ∧ queue_get_elmts_added (Queue.mk 0 1 ([] : List Nat))
          = queue_get_elmts_added (Queue.mk 1 1 [5] : Queue Nat))
    ∧ (runOps (Queue.mk 0 0 ([] : List Nat)) [QOp.add true (some 7)]
        = some (Queue.mk 1 1 [7])
      ∧ queue_get_elmts_added (Queue.mk 0 0 ([] : List Nat))
          ≤ queue_get_elmts_added (Queue.mk 1 1 [7] : Queue Nat)) :=
  ⟨⟨by decide, elmts_added_spec.2.2.1 (Queue.mk 1 1 [5]) (some 5) (Queue.mk 0 1 [])
      (by decide)⟩,
   ⟨by decide, elmts_added_spec.2.2.2 (Queue.mk 0 0 []) [QOp.add true (some 7)]
      (Queue.mk 1 1 [7]) (by decide)⟩⟩

/-- One write-loop step changes `failed` exactly by or-ing in its bit
when the outcome was a skip or a zero return. -/
theorem step_failed_eq (maskIn : Nat) (cb : Option (Nat → Bool)) (idx : Nat)
    (e : ZFilterEntry) (s s2 : PipeState) (o : StepOutcome)
    (h : H5Z_pipeline_write_step maskIn cb idx e s = Except.ok (s2, o)) :
    s2.failed = if o.skippy then s.failed ||| 1 <<< idx else s.failed := by
  unfold H5Z_pipeline_write_step at h
  split at h
  · simp only [Except.ok.injEq, Prod.mk.injEq] at h
    rw [← h.1, ← h.2]
    rfl
  · split at h
    · split at h
      · exact absurd h (by simp)
      · simp only [Except.ok.injEq, Prod.mk.injEq] at h
        rw [← h.1, ← h.2]
        rfl
    · split at h
      · split at h
        · split at h
          · exact absurd h (by simp)
          · split at h
            · simp only [Except.ok.injEq, Prod.mk.injEq] at h
              rw [← h.1, ← h.2]
              rfl
            · exact absurd h (by simp)
        · simp only [Except.ok.injEq, Prod.mk.injEq] at h
          rw [← h.1, ← h.2]
          rfl
      · simp only [Except.ok.injEq, Prod.mk.injEq] at h
        rw [← h.1, ← h.2]
        rfl

/-- A completed write loop produces one outcome per entry and or-s the
trace's bit pattern onto the incoming `failed` accumulator. -/
theorem loop_failed_eq (maskIn : Nat) (cb : Option (Nat → Bool)) (entries : List ZFilterEntry) :
    ∀ (idx : Nat) (s sf : PipeState) (os : List StepOutcome),
    H5Z_pipeline_write_loop maskIn cb entries idx s = Except.ok (sf, os) →
    os.length = entries.length ∧ sf.failed = s.failed ||| traceMask idx os := by
  induction entries with
  | nil =>
    intro idx s sf os h
    simp only [H5Z_pipeline_write_loop, Except.ok.injEq, Prod.mk.injEq] at h
    rw [← h.1, ← h.2]
    simp [traceMask]
  | cons e rest ih =>
    intro idx s sf os h
    unfold H5Z_pipeline_write_loop at h
    cases hstep : H5Z_pipeline_write_step maskIn cb idx e s with
    | error u => rw [hstep] at h; exact absurd h (by simp)
    | ok p =>
      obtain ⟨s2, o⟩ := p
      rw [hstep] at h
      dsimp only at h
      cases hloop : H5Z_pipeline_write_loop maskIn cb rest (idx + 1) s2 with
      | error u => rw [hloop] at h; exact absurd h (by simp)
      | ok p2 =>
        obtain ⟨sf2, os2⟩ := p2
        rw [hloop] at h
        dsimp only at h
        simp only [Except.ok.injEq, Prod.mk.injEq] at h
        obtain ⟨hsf, hos⟩ := h
        obtain ⟨hlen, hfail⟩ := ih (idx + 1) s2 sf2 os2 hloop
        subst hsf
        subst hos
        constructor
        · simp [hlen]
        · rw [hfail, step_failed_eq maskIn cb idx e s s2 o hstep]
          simp only [traceMask]
          by_cases hsk : o.skippy
          · simp only [hsk, if_true]
            rw [Nat.or_assoc]
          · simp only [hsk, Bool.false_eq_true, if_false]
            rw [Nat.zero_or]

/-- `traceMask` sets no bit below its base position or at or beyond the
end of the trace. -/
theorem traceMask_testBit_out (os : List StepOutcome) : ∀ (idx j : Nat),
    (j < idx ∨ idx + os.length ≤ j) → (traceMask idx os).testBit j = false := by
  induction os with
  | nil => intro idx j _; simp [traceMask]
  | cons o os ih =>
    intro idx j hj
    simp only [List.length_cons] at hj
    simp only [traceMask, Nat.testBit_or]
    have h1 : (if o.skippy then 1 <<< idx else 0).testBit j = false := by
      split
      · rw [Nat.shiftLeft_eq, one_mul, Nat.testBit_two_pow]
        have hne : idx ≠ j := by omega
        simp [hne]
      · simp
    have h2 : (traceMask (idx + 1) os).testBit j = false := by
      apply ih
      omega
    rw [h1, h2]
    rfl

/-- Bit `idx + k` of `traceMask idx os` is the `skippy`-ness of outcome
`k`. -/
theorem traceMask_testBit_get (os : List StepOutcome) : ∀ (idx k : Nat) (h : k < os.length),
    (traceMask idx os).testBit (idx + k) = (os.get ⟨k, h⟩).skippy := by
  induction os with
  | nil => intro idx k h; exact absurd h (by simp)
  | cons o os ih =>
    intro idx k h
    cases k with
    | zero =>
      simp only [traceMask, Nat.testBit_or, Nat.add_zero, List.get]
      have h2 : (traceMask (idx + 1) os).testBit idx = false :=
        traceMask_testBit_out os (idx + 1) idx (Or.inl (by omega))
      rw [h2]
      by_cases hsk : o.skippy
      · simp only [hsk, if_true]
        rw [Nat.shiftLeft_eq, one_mul, Nat.testBit_two_pow]
        simp
      · simp only [hsk, Bool.false_eq_true, if_false]
        simp [hsk]
    | succ k =>
      have harr : idx + (k + 1) = (idx + 1) + k := by omega
      simp only [traceMask, Nat.testBit_or, harr]
      rw [ih (idx + 1) k (by simpa using h)]
      have h1 : (if o.skippy then 1 <<< idx else 0).testBit ((idx + 1) + k) = false := by
        split
        · rw [Nat.shiftLeft_eq, one_mul, Nat.testBit_two_pow]
          have hne : idx ≠ idx + 1 + k := by omega
          simp [hne]
        · simp
      rw [h1]
      simp [List.get]

/-- C1: in a write-direction `H5Z_pipeline` run, (i) an optional filter
whose callable returns zero records its failure bit and leaves `*nbytes`
unchanged, processing continuing with the next position; (ii) a filter
returning a nonzero `v` sets `*nbytes = v` (and the possibly updated
`*buf_size`) before the next position runs; (iii) a position masked on
entry is skipped with its bit recorded; (iv) an unregistered optional
filter is skipped with its bit recorded; and (v) on every run that exits
normally, bit `i` of the resulting `*filter_mask` is set exactly when
position `i` was skipped or its callable returned zero (`skippy` of the
outcome trace), and no bit beyond the pipeline length is set. -/
theorem H5Z_pipeline_write_spec :
    (∀ (maskIn : Nat) (cb : Option (Nat → Bool)) (idx : Nat) (e : ZFilterEntry)
        (s : PipeState) (bs2 : Nat),
        maskIn.testBit idx = false → e.registered = true → e.optional = true →
        e.filter s.nbytes s.bufSize = (0, bs2) →
        H5Z_pipeline_write_step maskIn cb idx e s
          = Except.ok (⟨s.failed ||| 1 <<< idx, s.nbytes, bs2⟩, StepOutcome.failedZero))
    ∧ (∀ (maskIn : Nat) (cb : Option (Nat → Bool)) (idx : Nat) (e : ZFilterEntry)
        (s : PipeState) (v bs2 : Nat),
        maskIn.testBit idx = false → e.registered = true →
        e.filter s.nbytes s.bufSize = (v, bs2) → v ≠ 0 →
        H5Z_pipeline_write_step maskIn cb idx e s
          = Except.ok (⟨s.failed, v, bs2⟩, StepOutcome.applied v))
    ∧ (∀ (maskIn : Nat) (cb : Option (Nat → Bool)) (idx : Nat) (e : ZFilterEntry)
        (s : PipeState),
        maskIn.testBit idx = true →
        H5Z_pipeline_write_step maskIn cb idx e s
          = Except.ok ({ s with failed := s.failed ||| 1 <<< idx }, StepOutcome.skippedMask))
    ∧ (∀ (maskIn : Nat) (cb : Option (Nat → Bool)) (idx : Nat) (e : ZFilterEntry)
        (s : PipeState),
        maskIn.testBit idx = false → e.registered = false → e.optional = true →
        H5Z_pipeline_write_step maskIn cb idx e s
          = Except.ok ({ s with failed := s.failed ||| 1 <<< idx }, StepOutcome.skippedUnreg))
    ∧ (∀ (maskIn : Nat) (cb : Option (Nat → Bool)) (entries : List ZFilterEntry)
        (nbytes bufSize mask nb2 bs2 : Nat) (trace : List StepOutcome),
        H5Z_pipeline_write maskIn cb entries nbytes bufSize
          = Except.ok (mask, nb2, bs2, trace) →
        trace.length = entries.length
        ∧ (∀ (k : Nat) (hk : k < trace.length),
            mask.testBit k = (trace.get ⟨k, hk⟩).skippy)
        ∧ (∀ k : Nat, trace.length ≤ k → mask.testBit k = false)) := by
  refine ⟨?_, ?_, ?_, ?_, ?_⟩
  · intro maskIn cb idx e s bs2 hmask hreg hopt hfil
    unfold H5Z_pipeline_write_step
    rw [hmask, hreg, hfil, hopt]
    simp
  · intro maskIn cb idx e s v bs2 hmask hreg hfil hv
    cases v with
    | zero => exact absurd rfl hv
    | succ w =>
      unfold H5Z_pipeline_write_step
      rw [hmask, hreg, hfil]
      simp
  · intro maskIn cb idx e s hmask
    unfold H5Z_pipeline_write_step
    rw [hmask]
    simp
  · intro maskIn cb idx e s hmask hreg hopt
    unfold H5Z_pipeline_write_step
    rw [hmask, hreg, hopt]
    simp
  · intro maskIn cb entries nbytes bufSize mask nb2 bs2 trace h
    unfold H5Z_pipeline_write at h
    cases hloop : H5Z_pipeline_write_loop maskIn cb entries 0 ⟨0, nbytes, bufSize⟩ with
    | error u => rw [hloop] at h; exact absurd h (by simp)
    | ok p =>
      obtain ⟨sf, os⟩ := p
      rw [hloop] at h
      dsimp only at h
      simp only [Except.ok.injEq, Prod.mk.injEq] at h
      obtain ⟨hmask2, hnb, hbs, hos⟩ := h
      obtain ⟨hlen, hfail⟩ := loop_failed_eq maskIn cb entries 0 ⟨0, nbytes, bufSize⟩ sf os hloop
      subst hos
      refine ⟨hlen, ?_, ?_⟩
      · intro k hk
        rw [← hmask2, hfail]
        show ((0 : Nat) ||| traceMask 0 os).testBit k = _
        rw [Nat.zero_or]
        have hget := traceMask_testBit_get os 0 k hk
        rw [Nat.zero_add] at hget
        exact hget
      · intro k hk
        rw [← hmask2, hfail]
        show ((0 : Nat) ||| traceMask 0 os).testBit k = false
        rw [Nat.zero_or]
        exact traceMask_testBit_out os 0 k (Or.inr (by omega))

/-- Witness for C1's theorem: a two-filter pipeline (optional failing
filter, then a filter producing 5 bytes) run from 10 input bytes: the
mask is 1, `nbytes` ends at 5, and bit 0 matches the trace. -/
theorem H5Z_pipeline_write_spec_witness :
    H5Z_pipeline_write 0 none [entOptFail, entApply5] 10 10
      = Except.ok (1, 5, 10, [StepOutcome.failedZero, StepOutcome.applied 5])
    ∧ (1 : Nat).testBit 0
        = (([StepOutcome.failedZero, StepOutcome.applied 5].get ⟨0, by decide⟩).skippy) := by
  constructor
  · rfl
  · exact ((H5Z_pipeline_write_spec.2.2.2.2 0 none [entOptFail, entApply5] 10 10 1 5 10
      [StepOutcome.failedZero, StepOutcome.applied 5] rfl).2.1 0 (by decide))

/-- If any pipeline entry has an id with no library path that is not the
built-in DEFLATE, the resolver loop errors out, whatever else the
environment does. -/
theorem assignLoop_unknown (env : AssignEnv) (pluginPath : String) :
    ∀ (pipeline : List PipeEntry) (e : PipeEntry), e ∈ pipeline →
    H5Z__get_filter_lib_path e.id = none → e.id ≠ H5Z_FILTER_DEFLATE →
    assignLoop env pluginPath pipeline = Except.error () := by
  intro pipeline
  induction pipeline with
  | nil => intro e he _ _; simp at he
  | cons a rest ih =>
    intro e he hlib hdef
    rcases List.mem_cons.mp he with heq | hmem
    · subst heq
      unfold assignLoop
      rw [hlib]
      simp [hdef]
    · unfold assignLoop
      cases hl : H5Z__get_filter_lib_path a.id with
      | none =>
        by_cases hd : a.id = H5Z_FILTER_DEFLATE
        · simp only [hd, if_true]
          rw [ih e hmem hlib hdef]
        · simp [hd]
      | some p =>
        obtain ⟨libName, symbol⟩ := p
        dsimp only
        by_cases hc : env.callocOk = false
        · simp [hc]
        · simp only [hc, if_false]
          by_cases ho : env.dlopenOk (pluginPath ++ libName) = false
          · simp [ho]
          · simp only [ho, if_false]
            by_cases hs : env.dlsymAddr (pluginPath ++ libName) symbol = 0
            · simp [hs]
            · simp only [hs, if_false]
              rw [ih e hmem hlib hdef]
              simp

/-- C2 (amended): for every pipeline entry whose filter id is unknown to
the resolver (`H5Z__get_filter_lib_path` has no entry for it and it is
not the built-in `H5Z_FILTER_DEFLATE`), the whole `H5Z__assign_filter`
call fails before any worker starts — *regardless of the entry's
`OPTIONAL` flag*, which the resolver never reads; no "skip" slot is
recorded. -/
theorem assign_filter_unknown_id_fails (env : AssignEnv) (pipeline : List PipeEntry)
    (e : PipeEntry) (he : e ∈ pipeline)
    (hlib : H5Z__get_filter_lib_path e.id = none)
    (hdef : e.id ≠ H5Z_FILTER_DEFLATE) :
    H5Z__assign_filter env pipeline 'w' = Except.error () := by
  unfold H5Z__assign_filter
  simp only [if_pos rfl]
  exact assignLoop_unknown env _ pipeline e he hlib hdef

/-- Witness for C2's theorem: a two-entry pipeline (a known LZ4 entry,
then the unknown id 9999) fails as a whole under an environment where
every load succeeds. -/
theorem assign_filter_unknown_id_fails_witness :
    (⟨9999, 0⟩ : PipeEntry) ∈ [(⟨32004, 0⟩ : PipeEntry), ⟨9999, 0⟩]
    ∧ H5Z__get_filter_lib_path (9999 : Int) = none
    ∧ (9999 : Int) ≠ H5Z_FILTER_DEFLATE
    ∧ H5Z__assign_filter ⟨none, true, fun _ => true, fun _ _ => 1⟩
        [⟨32004, 0⟩, ⟨9999, 0⟩] 'w' = Except.error () :=
  ⟨by decide, by decide, by decide,
   assign_filter_unknown_id_fails ⟨none, true, fun _ => true, fun _ _ => 1⟩
     [⟨32004, 0⟩, ⟨9999, 0⟩] ⟨9999, 0⟩ (by decide) (by decide) (by decide)⟩
